import Mathlib

/-!
Shallow embedding of the armnn profiling pipe-server core:
`profiling/server/src/basePipeServer/BasePipeServer.cpp` and
`src/profiling/test/TestTimelinePacketHandler.hpp` (which also carries
`FileOnlyProfilingConnection.cpp`).

Machine bytes are modelled as `Nat` values below 256; 32-bit words as `Nat`
values below 2^32, with explicit `% 2^32` where C unsigned wrap-around can
occur.  Byte streams and buffers are `List Nat`.  Fallible operations return
`Option`.
-/

namespace ArmnnProfiling

/-- Endianness tag, `TargetEndianness` from the profiling common headers. -/
inductive TargetEndianness where
  | BeWire
  | LeWire
deriving DecidableEq

/-- `BasePipeServer::ToUint32` (BasePipeServer.cpp:261-275): extract the first
4 bytes starting at `data` and combine them into a 32-bit integer under the
given endianness.  The pointer argument is modelled as a byte list read at
indices 0..3 (out-of-range reads yield 0; the C code never performs them on
the paths modelled here).  `FileOnlyProfilingConnection::ToUint32` is the
identical function. -/
def ToUint32 (data : List Nat) (endianness : TargetEndianness) : Nat :=
  match endianness with
  | .BeWire =>
      (data.getD 0 0) <<< 24 ||| (data.getD 1 0) <<< 16 |||
      (data.getD 2 0) <<< 8 ||| (data.getD 3 0)
  | .LeWire =>
      (data.getD 3 0) <<< 24 ||| (data.getD 2 0) <<< 16 |||
      (data.getD 1 0) <<< 8 ||| (data.getD 0 0)

/-- `BasePipeServer::InsertU32` (BasePipeServer.cpp:277-295): write the 4
bytes of a 32-bit value into a buffer under the given endianness.  The
4-byte destination region is returned as a list. -/
def InsertU32 (value : Nat) (endianness : TargetEndianness) : List Nat :=
  match endianness with
  | .BeWire =>
      [(value >>> 24) &&& 0xFF, (value >>> 16) &&& 0xFF,
       (value >>> 8) &&& 0xFF, value &&& 0xFF]
  | .LeWire =>
      [value &&& 0xFF, (value >>> 8) &&& 0xFF,
       (value >>> 16) &&& 0xFF, (value >>> 24) &&& 0xFF]

/-- `armnn::profiling::Packet`: header word, payload length, payload bytes.
The C++ invariant that the owned buffer has exactly `length` bytes is implicit
in the construction sites modelled below. -/
structure Packet where
  header : Nat
  length : Nat
  data : List Nat
deriving DecidableEq

namespace BasePipeServer

/-- Result of one `Sockets::Read` call: an error (`read` returned a negative
count) or a chunk of bytes placed at the start of the destination buffer (a
zero-length chunk is the zero-byte "peer closed" result). -/
inductive ReadResult where
  | err
  | chunk (data : List Nat)
deriving DecidableEq

/-- Effect of `recv` writing `data.length` bytes at the start of `buffer`. -/
def overwriteStart (buffer data : List Nat) : List Nat :=
  data ++ buffer.drop data.length

/-- Loop body of `BasePipeServer::ReadFromSocket` (BasePipeServer.cpp:21-41).
The socket is modelled by `schedule`, the list of results the successive
`Sockets::Read(m_ClientConnection, packetData, expectedLength)` calls return.
Note the source passes the unadvanced base pointer `packetData` and the full
`expectedLength` to every call, so each chunk lands at the start of the
buffer; only `totalBytesRead` accumulates.  `none` models returning `false`
(and also the unreachable state of an exhausted schedule, which in the real
system would block forever). -/
def ReadFromSocketLoop : List ReadResult → List Nat → Nat → Nat → Option (List Nat)
  | [], buffer, expectedLength, totalBytesRead =>
      if expectedLength ≤ totalBytesRead then some buffer else none
  | r :: rest, buffer, expectedLength, totalBytesRead =>
      if expectedLength ≤ totalBytesRead then some buffer
      else
        match r with
        | .err => none
        | .chunk c =>
            if c.length = 0 then none
            else ReadFromSocketLoop rest (overwriteStart buffer c)
                   expectedLength (totalBytesRead + c.length)

/-- `BasePipeServer::ReadFromSocket`: blocking read until `expectedLength`
bytes have accumulated or an error is detected; returns the final contents of
the caller's buffer on success. -/
def ReadFromSocket (buffer : List Nat) (expectedLength : Nat)
    (schedule : List ReadResult) : Option (List Nat) :=
  ReadFromSocketLoop schedule buffer expectedLength 0

/-- `BasePipeServer::ReadHeader` (BasePipeServer.cpp:217-229) over an ideal
byte stream (each read delivers its full request): reads 8 bytes and decodes
the two header words with the connection endianness.  Returns the words and
the unconsumed remainder of the stream. -/
def ReadHeader (stream : List Nat) (e : TargetEndianness) :
    Option (Nat × Nat × List Nat) :=
  if stream.length < 8 then none
  else some (ToUint32 stream e, ToUint32 (stream.drop 4) e, stream.drop 8)

/-- `BasePipeServer::ReceivePacket` (BasePipeServer.cpp:163-190) over an ideal
byte stream: reads the 8-byte header, then `header[1]` payload bytes, and
constructs the received Packet.  `none` models the empty sentinel `Packet()`
returned when a read step fails. -/
def ReceivePacket (stream : List Nat) (e : TargetEndianness) : Option Packet :=
  match ReadHeader stream e with
  | none => none
  | some (header0, header1, rest) =>
      if rest.length < header1 then none
      else some ⟨header0, header1, rest.take header1⟩

/-- Header word built by `BasePipeServer::SendPacket` (BasePipeServer.cpp:197):
`packetFamily << 26 | packetId << 16` in 32-bit unsigned arithmetic. -/
def packHeader (packetFamily packetId : Nat) : Nat :=
  ((packetFamily <<< 26) % 2 ^ 32) ||| ((packetId <<< 16) % 2 ^ 32)

/-- Bytes placed on the wire by `BasePipeServer::SendPacket`
(BasePipeServer.cpp:192-215): encoded header word, encoded length word, then
the payload. -/
def SendPacketBytes (packetFamily packetId : Nat) (data : List Nat)
    (e : TargetEndianness) : List Nat :=
  InsertU32 (packHeader packetFamily packetId) e ++
    InsertU32 (data.length % 2 ^ 32) e ++ data

/-- Linux `poll` event bits used by `BasePipeServer::WaitForPacket`. -/
def POLLIN : Nat := 0x1

def POLLERR : Nat := 0x8

def POLLHUP : Nat := 0x10

def POLLNVAL : Nat := 0x20

/-- Outcome of the wait: a thrown `armnn::TimeoutException`, a thrown
`armnn::RuntimeException`, or falling through to `ReceivePacket()`. -/
inductive WaitOutcome where
  | timeoutErr (msg : String)
  | runtimeErr (msg : String)
  | receive
deriving DecidableEq

/-- The trailing data-readability check of `BasePipeServer::WaitForPacket`
(BasePipeServer.cpp:151-158), reached when none of the exact-equality error
cases fired. -/
def checkDataToRead (revents : Nat) : WaitOutcome :=
  if revents &&& POLLIN = 0 then
    .timeoutErr "File descriptor was polled but no data was available to receive."
  else .receive

/-- The poll branch of `BasePipeServer::WaitForPacket`
(BasePipeServer.cpp:113-160): switch on the `poll` result, then inspect
`revents`.  `osErr` stands for the `strerror(errno)` text.  The three error
checks compare `revents` for exact equality, so a combined event mask falls
through to the `POLLIN` check. -/
def WaitForPacketPoll (osErr : String) (pollResult : Int) (revents : Nat) :
    WaitOutcome :=
  if pollResult = -1 then
    .runtimeErr ("File descriptor reported an error during polling: " ++ osErr)
  else if pollResult = 0 then
    .timeoutErr "Timeout while waiting to receive packet."
  else
    if revents &&& (POLLNVAL ||| POLLERR ||| POLLHUP) ≠ 0 then
      if revents = POLLNVAL then
        .runtimeErr "Error while polling receiving socket: POLLNVAL"
      else if revents = POLLERR then
        .runtimeErr ("Error while polling receiving socket: POLLERR: " ++ osErr)
      else if revents = POLLHUP then
        .runtimeErr "Connection closed by remote client: POLLHUP"
      else checkDataToRead revents
    else checkDataToRead revents

/-- `BasePipeServer::WaitForPacket` (BasePipeServer.cpp:103-161): if more than
a header's worth of bytes is already buffered (`FIONREAD`), receive directly;
otherwise take the poll path. -/
def WaitForPacket (bytesAvailable : Int) (osErr : String) (pollResult : Int)
    (revents : Nat) : WaitOutcome :=
  if bytesAvailable > 8 then .receive
  else WaitForPacketPoll osErr pollResult revents

/-- The endianness decision of `BasePipeServer::WaitForStreamMetaData`
(BasePipeServer.cpp:71-83): try the big-endian interpretation of the probe
word first, then the little-endian one. -/
def DetermineEndianness (pipeMagic : Nat) (probe : List Nat) :
    Option TargetEndianness :=
  if ToUint32 probe .BeWire = pipeMagic then some .BeWire
  else if ToUint32 probe .LeWire = pipeMagic then some .LeWire
  else none

/-- The remaining-preamble byte count computed at BasePipeServer.cpp:86:
`ToUint32(&header[4], m_Endianness) - 4` in unsigned 32-bit arithmetic
(wraps modulo 2^32 when the decoded word is below 4). -/
def metaDataLengthOf (lenWord : Nat) : Nat :=
  (lenWord + 2 ^ 32 - 4) % 2 ^ 32

/-- Stream metadata extracted by the handshake. -/
structure StreamMetaData where
  endianness : TargetEndianness
  version : Nat
  maxDataLen : Nat
  pid : Nat
deriving DecidableEq

/-- `BasePipeServer::WaitForStreamMetaData` (BasePipeServer.cpp:43-101) over
an ideal byte stream.  Reads the 8-byte preamble header, checks the identifier
word (big-endian) is 0, reads the 4-byte magic probe at offset 8, fixes the
endianness, computes the remaining length from the (already read) length word,
reads that many bytes in a single `Sockets::Read` (which fails unless the
stream still holds that many bytes), and decodes version, max-data-length and
process id at offsets 0/4/8. -/
def WaitForStreamMetaData (pipeMagic : Nat) (stream : List Nat) :
    Option StreamMetaData :=
  if stream.length < 8 then none
  else if ToUint32 stream .BeWire ≠ 0 then none
  else if stream.length < 12 then none
  else
    match DetermineEndianness pipeMagic (stream.drop 8) with
    | none => none
    | some e =>
        let metaDataLength := metaDataLengthOf (ToUint32 (stream.drop 4) e)
        if (stream.drop 12).length < metaDataLength then none
        else
          let packetData := (stream.drop 12).take metaDataLength
          some ⟨e, ToUint32 packetData e, ToUint32 (packetData.drop 4) e,
                ToUint32 (packetData.drop 8) e⟩

end BasePipeServer

namespace FileOnlyProfilingConnection

/-- A registered `ILocalPacketHandler`: `id` identifies the handler object (so
call order can be observed), `headersAccepted` is its `GetHeadersAccepted()`
result. -/
structure Handler where
  id : Nat
  headersAccepted : List Nat
deriving DecidableEq

/-- The handler registry built by `AddLocalPacketHandler`
(TestTimelinePacketHandler.hpp, FileOnlyProfilingConnection.cpp segment,
lines 331-358): `m_UniversalHandlers` plus `m_IndexedHandlers`, the
`std::map<uint32_t, std::vector<handler>>` modelled as an association list
(dispatch only ever calls `find`, so the map's key ordering is irrelevant). -/
structure Registry where
  universalHandlers : List Handler
  indexedHandlers : List (Nat × List Handler)
deriving DecidableEq

def emptyRegistry : Registry := ⟨[], []⟩

/-- One `m_IndexedHandlers` update step: `find`, then either `emplace` a fresh
singleton vector or `push_back` onto the existing one. -/
def insertIndexed (idx : List (Nat × List Handler)) (header : Nat)
    (h : Handler) : List (Nat × List Handler) :=
  match idx with
  | [] => [(header, [h])]
  | (k, hs) :: rest =>
      if k = header then (k, hs ++ [h]) :: rest
      else (k, hs) :: insertIndexed rest header h

/-- `m_IndexedHandlers.find(header)`, yielding the empty vector when absent. -/
def findIndexed (idx : List (Nat × List Handler)) (header : Nat) :
    List Handler :=
  match idx with
  | [] => []
  | (k, hs) :: rest => if k = header then hs else findIndexed rest header

/-- `FileOnlyProfilingConnection::AddLocalPacketHandler`: a handler with an
empty accepted set joins `m_UniversalHandlers`; otherwise it is appended to
the indexed vector of every header it accepts. -/
def AddLocalPacketHandler (reg : Registry) (h : Handler) : Registry :=
  if h.headersAccepted.isEmpty then
    { reg with universalHandlers := reg.universalHandlers ++ [h] }
  else
    { reg with
        indexedHandlers :=
          h.headersAccepted.foldl (fun idx header => insertIndexed idx header h)
            reg.indexedHandlers }

/-- Registry after registering `hs` in order, starting from empty. -/
def buildRegistry (hs : List Handler) : Registry :=
  hs.foldl AddLocalPacketHandler emptyRegistry

/-- `FileOnlyProfilingConnection::DispatchPacketToHandlers` (lines 451-465):
every universal handler in order, then the indexed vector for the packet's
header value.  The result is the observed call order (handler ids). -/
def DispatchPacketToHandlers (reg : Registry) (packetHeader : Nat) : List Nat :=
  reg.universalHandlers.map Handler.id ++
    (findIndexed reg.indexedHandlers packetHeader).map Handler.id

/-- State of a `FileOnlyProfilingConnection`.  The worker thread's dispatch
calls are recorded in `dispatched` (the packets passed to
`DispatchPacketToHandlers`, in order). -/
structure Conn where
  packetQueue : List Packet
  readableList : List Packet
  keepRunning : Bool
  isRunning : Bool
  dispatched : List Packet
  packetHandlers : List Handler
  endianness : TargetEndianness
  idList : List Nat
  capturePeriod : Nat
deriving DecidableEq

/-- `FileOnlyProfilingConnection::ForwardPacketToHandlers` (lines 377-396):
no-op when no handlers are registered or the pipeline is not running,
otherwise the packet is appended to `m_ReadableList` (the two `m_KeepRunning`
loads around the lock collapse to one in this sequential model). -/
def ForwardPacketToHandlers (s : Conn) (packet : Packet) : Conn :=
  if s.packetHandlers.isEmpty then s
  else if s.keepRunning = false then s
  else { s with readableList := s.readableList ++ [packet] }

/-- `FileOnlyProfilingConnection::ClearReadableList` (lines 441-449). -/
def ClearReadableList (s : Conn) : Conn :=
  { s with readableList := [] }

/-- The bounded/unbounded wait selection of
`FileOnlyProfilingConnection::ServiceLocalHandlers` (lines 406-416): a
negative `m_Timeout` selects the unbounded `wait` (`none`); otherwise the
`wait_for` bound is `std::max(m_Timeout, 1000)` milliseconds. -/
def serviceWaitBound (timeout : Int) : Option Int :=
  if timeout < 0 then none else some (max timeout 1000)

/-- One iteration of the `do` body of
`FileOnlyProfilingConnection::ServiceLocalHandlers` (lines 400-434), with the
condition-variable wait abstracted away (time is not modelled): while running,
pop and dispatch the front packet if one is queued; once `m_KeepRunning` is
false, drain the queue instead of dispatching. -/
def serviceBody (s : Conn) : Conn :=
  if s.keepRunning then
    match s.readableList with
    | [] => s
    | p :: rest =>
        { s with readableList := rest, dispatched := s.dispatched ++ [p] }
  else ClearReadableList s

/-- The `do … while (m_KeepRunning.load())` loop of `ServiceLocalHandlers`
plus its epilogue (final `ClearReadableList` and `m_IsRunning.store(false)`,
lines 435-438).  `fuel` bounds the number of scheduler steps the worker may
take; the theorems show one step suffices once `keepRunning` is false. -/
def ServiceLoop : Nat → Conn → Conn
  | 0, s => s
  | fuel + 1, s =>
      let s1 := serviceBody s
      if s1.keepRunning then ServiceLoop fuel s1
      else { s1 with readableList := [], isRunning := false }

/-- `FileOnlyProfilingConnection::Close` (lines 124-140): dump every unread
packet out of `m_PacketQueue`, clear `m_KeepRunning`, wake the worker and join
it.  The join is modelled by running the worker loop to completion. -/
def Close (fuel : Nat) (s : Conn) : Conn :=
  ServiceLoop fuel { s with packetQueue := [], keepRunning := false }

/-- Classification of `FileOnlyProfilingConnection::GetPackageActivity`
(lines 287-303). -/
inductive PackageActivity where
  | StreamMetaData
  | CounterDirectory
  | Unknown
deriving DecidableEq

/-- `FileOnlyProfilingConnection::GetPackageActivity`: header `0x20000` is a
counter-directory packet, header `0` is stream metadata, anything else is
unknown. -/
def GetPackageActivity (packet : Packet) : PackageActivity :=
  if packet.header = 0x20000 then .CounterDirectory
  else if packet.header = 0 then .StreamMetaData
  else .Unknown

/-- `FileOnlyProfilingConnection::SendConnectionAck` (lines 168-180): push a
zero-length packet with header `0x10000` onto `m_PacketQueue`. -/
def SendConnectionAck (s : Conn) : Conn :=
  { s with packetQueue := s.packetQueue ++ [⟨0x10000, 0, []⟩] }

/-- Modelled from the spec: `WriteUint32` from ProfilingUtils is not under
src/; §6 gives the counter-selection payload layout (capture-period as a
4-byte field).  Profiling utility writers emit host little-endian bytes. -/
def WriteUint32 (v : Nat) : List Nat :=
  [v % 256, v / 2 ^ 8 % 256, v / 2 ^ 16 % 256, v / 2 ^ 24 % 256]

/-- Modelled from the spec: `WriteUint16` from ProfilingUtils is not under
src/; §6 gives the counter-selection payload layout (a sequence of 2-byte
counter identifiers). -/
def WriteUint16 (v : Nat) : List Nat :=
  [v % 256, v / 2 ^ 8 % 256]

/-- `FileOnlyProfilingConnection::SendCounterSelectionPacket` (lines 182-211):
build a body of the capture period followed by the 2-byte ids of `m_IdList`,
and push it as a packet with header `0x40000` onto `m_PacketQueue`. -/
def SendCounterSelectionPacket (s : Conn) : Conn :=
  let bodySize := 4 + 2 * s.idList.length
  let body := WriteUint32 s.capturePeriod ++
    s.idList.foldr (fun i acc => WriteUint16 i ++ acc) []
  { s with packetQueue := s.packetQueue ++ [⟨0x40000, bodySize, body⟩] }

/-- Modelled from the spec: `ProfilingUtils::ReceivePacket` (the buffer
parser called at the top of `WritePacket`, line 216) is not under src/; per
§6 it splits the raw buffer into header word, length word and payload. -/
def parsePacketFromBuffer (e : TargetEndianness) (buffer : List Nat) : Packet :=
  ⟨ToUint32 buffer e, ToUint32 (buffer.drop 4) e,
    (buffer.drop 8).take (ToUint32 (buffer.drop 4) e)⟩

/-- `FileOnlyProfilingConnection::WaitForStreamMeta` (lines 142-166): check
the identifier word is 0, then fix the endianness from the magic probe at
buffer offset 8.  `none` models `Fail` (which closes and throws). -/
def WaitForStreamMeta (pipeMagic : Nat) (s : Conn) (buffer : List Nat) :
    Option Conn :=
  if ToUint32 buffer .BeWire ≠ 0 then none
  else
    match BasePipeServer.DetermineEndianness pipeMagic (buffer.drop 8) with
    | some e => some { s with endianness := e }
    | none => none

/-- The counter-directory branch of `WritePacket` (lines 234-259): decode the
directory packet body, translate the discovered counter uids back into the
parent identifier space, extend `m_IdList`, and send a counter-selection
packet.  The decoder and uid translation
(`DirectoryCaptureCommandHandler`, `TranslateUIDCopyToOriginal`) are not under
src/ and are abstracted as the `decodeUids` argument (spec §4.6). -/
def ProcessCounterDirectory (decodeUids : List Nat → List Nat) (s : Conn)
    (buffer : List Nat) : Conn :=
  SendCounterSelectionPacket
    { s with idList := s.idList ++ decodeUids (buffer.drop 8) }

/-- `FileOnlyProfilingConnection::WritePacket` (lines 213-267): parse the raw
buffer into a packet, branch on `GetPackageActivity`, then forward the packet
to the registered handlers.  `none` models an exception escaping
(`WaitForStreamMeta`'s `Fail`). -/
def WritePacket (pipeMagic : Nat) (decodeUids : List Nat → List Nat)
    (s : Conn) (buffer : List Nat) : Option Conn :=
  let packet := parsePacketFromBuffer s.endianness buffer
  match GetPackageActivity packet with
  | .StreamMetaData =>
      match WaitForStreamMeta pipeMagic s buffer with
      | none => none
      | some s1 => some (ForwardPacketToHandlers (SendConnectionAck s1) packet)
  | .CounterDirectory =>
      some (ForwardPacketToHandlers (ProcessCounterDirectory decodeUids s buffer)
        packet)
  | .Unknown => some (ForwardPacketToHandlers s packet)

end FileOnlyProfilingConnection

/-- Discriminator for `WaitOutcome.timeoutErr`. -/
def isTimeoutErr : BasePipeServer.WaitOutcome → Bool
  | .timeoutErr _ => true
  | _ => false

section ClaimTheorems

open BasePipeServer FileOnlyProfilingConnection

theorem and_255_eq_mod (x : Nat) : x &&& 0xFF = x % 256 := by
  have h := Nat.and_pow_two_sub_one_eq_mod x 8
  norm_num at h
  exact h

theorem shiftRight_and_255 (x k : Nat) : (x >>> k) &&& 0xFF = x / 2 ^ k % 256 := by
  rw [and_255_eq_mod, Nat.shiftRight_eq_div_pow]

/-- The big-endian byte-combination chain as plain arithmetic. -/
theorem lorChain (a b c d : Nat) (hb : b < 256) (hc : c < 256) (hd : d < 256) :
    a <<< 24 ||| b <<< 16 ||| c <<< 8 ||| d =
      a * 2 ^ 24 + b * 2 ^ 16 + c * 2 ^ 8 + d := by
  have h1 : a <<< 24 ||| b <<< 16 = a * 2 ^ 24 + b * 2 ^ 16 := by
    rw [Nat.shiftLeft_eq, Nat.shiftLeft_eq]
    have := Nat.mul_add_lt_is_or (i := 24) (b := b * 2 ^ 16)
      (by calc b * 2 ^ 16 < 256 * 2 ^ 16 :=
                 (Nat.mul_lt_mul_right (by norm_num)).mpr hb
              _ = 2 ^ 24 := by norm_num) a
    rw [Nat.mul_comm a (2 ^ 24)]
    omega
  have h2 : a * 2 ^ 24 + b * 2 ^ 16 ||| c <<< 8 =
      a * 2 ^ 24 + b * 2 ^ 16 + c * 2 ^ 8 := by
    rw [Nat.shiftLeft_eq]
    have heq : a * 2 ^ 24 + b * 2 ^ 16 = 2 ^ 16 * (a * 2 ^ 8 + b) := by ring
    have := Nat.mul_add_lt_is_or (i := 16) (b := c * 2 ^ 8)
      (by calc c * 2 ^ 8 < 256 * 2 ^ 8 :=
                 (Nat.mul_lt_mul_right (by norm_num)).mpr hc
              _ = 2 ^ 16 := by norm_num) (a * 2 ^ 8 + b)
    rw [heq]
    omega
  have h3 : a * 2 ^ 24 + b * 2 ^ 16 + c * 2 ^ 8 ||| d =
      a * 2 ^ 24 + b * 2 ^ 16 + c * 2 ^ 8 + d := by
    have heq : a * 2 ^ 24 + b * 2 ^ 16 + c * 2 ^ 8 =
        2 ^ 8 * (a * 2 ^ 16 + b * 2 ^ 8 + c) := by ring
    have := Nat.mul_add_lt_is_or (i := 8) (b := d) (by omega)
      (a * 2 ^ 16 + b * 2 ^ 8 + c)
    rw [heq]
    omega
  rw [h1, h2, h3]

theorem getD_lt_256 (l : List Nat) (h : ∀ x ∈ l, x < 256) (i : Nat) :
    l.getD i 0 < 256 := by
  induction l generalizing i with
  | nil => simp [List.getD]
  | cons a t ih =>
      cases i with
      | zero => simpa using h a (by simp)
      | succ n =>
          simp only [List.getD_cons_succ]
          exact ih (fun x hx => h x (by simp [hx])) n

/-- `ToUint32` on an explicit big-endian 4-byte prefix, in arithmetic form. -/
theorem ToUint32_cons_be (b0 b1 b2 b3 : Nat) (rest : List Nat)
    (h1 : b1 < 256) (h2 : b2 < 256) (h3 : b3 < 256) :
    ToUint32 (b0 :: b1 :: b2 :: b3 :: rest) .BeWire =
      b0 * 2 ^ 24 + b1 * 2 ^ 16 + b2 * 2 ^ 8 + b3 := by
  simp only [ToUint32, List.getD_cons_zero, List.getD_cons_succ]
  exact lorChain b0 b1 b2 b3 h1 h2 h3

/-- `ToUint32` on an explicit little-endian 4-byte prefix, in arithmetic form. -/
theorem ToUint32_cons_le (b0 b1 b2 b3 : Nat) (rest : List Nat)
    (h0 : b0 < 256) (h1 : b1 < 256) (h2 : b2 < 256) :
    ToUint32 (b0 :: b1 :: b2 :: b3 :: rest) .LeWire =
      b3 * 2 ^ 24 + b2 * 2 ^ 16 + b1 * 2 ^ 8 + b0 := by
  simp only [ToUint32, List.getD_cons_zero, List.getD_cons_succ]
  exact lorChain b3 b2 b1 b0 h2 h1 h0

theorem ToUint32_lt (data : List Nat) (e : TargetEndianness)
    (h : ∀ x ∈ data, x < 256) : ToUint32 data e < 2 ^ 32 := by
  have g0 := getD_lt_256 data h 0
  have g1 := getD_lt_256 data h 1
  have g2 := getD_lt_256 data h 2
  have g3 := getD_lt_256 data h 3
  cases e <;> simp only [ToUint32]
  · rw [lorChain _ _ _ _ g1 g2 g3]; omega
  · rw [lorChain _ _ _ _ g2 g1 g0]; omega

/-- Each byte produced by `InsertU32` is below 256. -/
theorem InsertU32_mem_lt (value : Nat) (e : TargetEndianness) :
    ∀ x ∈ InsertU32 value e, x < 256 := by
  cases e <;> simp only [InsertU32, List.mem_cons, List.not_mem_nil, or_false] <;>
    rintro x (rfl | rfl | rfl | rfl) <;> rw [and_255_eq_mod] <;> omega

theorem InsertU32_length (value : Nat) (e : TargetEndianness) :
    (InsertU32 value e).length = 4 := by
  cases e <;> rfl

/-- Reading back the four bytes written by `InsertU32` recovers the value,
for any trailing bytes in the buffer. -/
theorem ToUint32_InsertU32_append (value : Nat) (e : TargetEndianness)
    (rest : List Nat) (hv : value < 2 ^ 32) :
    ToUint32 (InsertU32 value e ++ rest) e = value := by
  cases e
  · simp only [InsertU32, List.cons_append, List.nil_append]
    rw [ToUint32_cons_be _ _ _ _ _
        (by rw [shiftRight_and_255]; omega)
        (by rw [shiftRight_and_255]; omega)
        (by rw [and_255_eq_mod]; omega)]
    rw [shiftRight_and_255, shiftRight_and_255, shiftRight_and_255, and_255_eq_mod]
    omega
  · simp only [InsertU32, List.cons_append, List.nil_append]
    rw [ToUint32_cons_le _ _ _ _ _
        (by rw [and_255_eq_mod]; omega)
        (by rw [shiftRight_and_255]; omega)
        (by rw [shiftRight_and_255]; omega)]
    rw [shiftRight_and_255, shiftRight_and_255, shiftRight_and_255, and_255_eq_mod]
    omega

/-- Writing back the word read from a 4-byte buffer reproduces the buffer. -/
theorem InsertU32_ToUint32 (b : List Nat) (e : TargetEndianness)
    (hlen : b.length = 4) (hb : ∀ x ∈ b, x < 256) :
    InsertU32 (ToUint32 b e) e = b := by
  match b, hlen with
  | [b0, b1, b2, b3], _ =>
      have h0 : b0 < 256 := hb b0 (by simp)
      have h1 : b1 < 256 := hb b1 (by simp)
      have h2 : b2 < 256 := hb b2 (by simp)
      have h3 : b3 < 256 := hb b3 (by simp)
      cases e
      · rw [ToUint32_cons_be b0 b1 b2 b3 [] h1 h2 h3]
        simp only [InsertU32, List.cons.injEq, and_true]
        rw [shiftRight_and_255, shiftRight_and_255, shiftRight_and_255, and_255_eq_mod]
        refine ⟨by omega, by omega, by omega, by omega⟩
      · rw [ToUint32_cons_le b0 b1 b2 b3 [] h0 h1 h2]
        simp only [InsertU32, List.cons.injEq, and_true]
        rw [shiftRight_and_255, shiftRight_and_255, shiftRight_and_255, and_255_eq_mod]
        refine ⟨by omega, by omega, by omega, by omega⟩


/-- C8: the byte-order codec functions are mutually inverse: for every 32-bit
value `v` and endianness `e`, `ToUint32 (InsertU32 v e) e = v`, and for every
4-byte buffer `b`, `InsertU32 (ToUint32 b e) e` reproduces `b` byte for
byte. -/
theorem C8_codec_roundtrip (e : TargetEndianness) (v : Nat) (b : List Nat)
    (hv : v < 2 ^ 32) (hlen : b.length = 4) (hb : ∀ x ∈ b, x < 256) :
    ToUint32 (InsertU32 v e) e = v ∧ InsertU32 (ToUint32 b e) e = b := by
  constructor
  · have h := ToUint32_InsertU32_append v e [] hv
    simpa using h
  · exact InsertU32_ToUint32 b e hlen hb

/-- Witness for C8 at `v = 0x12345678`, `b = [1, 2, 3, 4]`, both ends. -/
theorem C8_codec_roundtrip_witness :
    (ToUint32 (InsertU32 305419896 .BeWire) .BeWire = 305419896 ∧
      InsertU32 (ToUint32 [1, 2, 3, 4] .BeWire) .BeWire = [1, 2, 3, 4]) ∧
    (ToUint32 (InsertU32 305419896 .LeWire) .LeWire = 305419896 ∧
      InsertU32 (ToUint32 [1, 2, 3, 4] .LeWire) .LeWire = [1, 2, 3, 4]) :=
  ⟨C8_codec_roundtrip .BeWire 305419896 [1, 2, 3, 4] (by norm_num) (by decide)
      (by decide),
   C8_codec_roundtrip .LeWire 305419896 [1, 2, 3, 4] (by norm_num) (by decide)
      (by decide)⟩

/-- C10: for a configured non-negative dispatch-worker soft timeout, the
bounded condition-variable wait uses `max(timeout, 1000)` milliseconds, so
every timeout below 1000 ms is raised to a 1000 ms bound. -/
theorem C10_service_wait_bound (t : Int) (h : 0 ≤ t) :
    serviceWaitBound t = some (max t 1000) ∧
      (t < 1000 → serviceWaitBound t = some 1000) := by
  unfold serviceWaitBound
  rw [if_neg (by omega)]
  exact ⟨rfl, fun ht => by rw [max_eq_right (by omega)]⟩

/-- Witness for C10 at the sub-second timeout 500 ms. -/
theorem C10_service_wait_bound_witness : serviceWaitBound 500 = some 1000 :=
  (C10_service_wait_bound 500 (by norm_num)).2 (by norm_num)

/-- C3: evaluation of `ReadFromSocket` at the failing input.  Requesting 2
bytes from a source that delivers them as the two chunks `[9]` then `[7]`
succeeds, but because every `Sockets::Read` call receives the unadvanced base
pointer, the second chunk overwrites the first: the buffer ends as `[7, 0]`,
not the source bytes `[9, 7]`.  (An error or a zero-byte read before the 2
bytes arrive does fail immediately, as the claim says.) -/
theorem C3_read_from_socket_failing_input :
    ReadFromSocket [0, 0] 2 [.chunk [9], .chunk [7]] = some [7, 0] ∧
      ReadFromSocket [0, 0] 2 [.chunk [9], .chunk [7]] ≠ some [9, 7] ∧
      ReadFromSocket [0, 0] 2 [.err] = none ∧
      ReadFromSocket [0, 0] 2 [.chunk []] = none := by
  decide

/-- C4 counterexample: a negative poll result (`poll` returned -1) does not
fail with a TimeoutError as the claim states; it throws a RuntimeError
carrying the OS error text. -/
theorem C4_counterexample :
    isTimeoutErr (WaitForPacketPoll "E" (-1) 0) = false ∧
      WaitForPacketPoll "E" (-1) 0 =
        .runtimeErr "File descriptor reported an error during polling: E" := by
  decide

/-- C4 (amended): on the poll path, a zero poll result fails with
TimeoutError; a negative result (-1, the wait-error case) fails with a
RuntimeError including the OS error text; when the positive-result `revents`
equals exactly POLLNVAL, POLLERR or POLLHUP the wait fails with a RuntimeError
distinguishing the three cases (a combined event mask instead falls through to
the POLLIN check); otherwise, no readable data (POLLIN unset) fails with the
retryable TimeoutError, and readable data proceeds to receive. -/
theorem C4_poll_error_paths (osErr : String) (pollResult : Int) (revents : Nat) :
    (pollResult = 0 →
      WaitForPacketPoll osErr pollResult revents =
        .timeoutErr "Timeout while waiting to receive packet.")
    ∧ (pollResult = -1 →
        WaitForPacketPoll osErr pollResult revents =
          .runtimeErr ("File descriptor reported an error during polling: "
            ++ osErr))
    ∧ (pollResult ≠ -1 → pollResult ≠ 0 →
        (revents = POLLNVAL →
          WaitForPacketPoll osErr pollResult revents =
            .runtimeErr "Error while polling receiving socket: POLLNVAL")
        ∧ (revents = POLLERR →
            WaitForPacketPoll osErr pollResult revents =
              .runtimeErr ("Error while polling receiving socket: POLLERR: "
                ++ osErr))
        ∧ (revents = POLLHUP →
            WaitForPacketPoll osErr pollResult revents =
              .runtimeErr "Connection closed by remote client: POLLHUP")
        ∧ (revents ≠ POLLNVAL → revents ≠ POLLERR → revents ≠ POLLHUP →
            revents &&& POLLIN = 0 →
            WaitForPacketPoll osErr pollResult revents =
              .timeoutErr
                "File descriptor was polled but no data was available to receive.")
        ∧ (revents ≠ POLLNVAL → revents ≠ POLLERR → revents ≠ POLLHUP →
            revents &&& POLLIN ≠ 0 →
            WaitForPacketPoll osErr pollResult revents = .receive)) := by
  refine ⟨?_, ?_, ?_⟩
  · intro h0
    subst h0
    unfold WaitForPacketPoll
    rw [if_neg (by decide), if_pos rfl]
  · intro h1
    subst h1
    unfold WaitForPacketPoll
    rw [if_pos rfl]
  · intro h1 h0
    refine ⟨?_, ?_, ?_, ?_, ?_⟩
    · intro hr
      subst hr
      unfold WaitForPacketPoll
      rw [if_neg h1, if_neg h0, if_pos (by decide), if_pos rfl]
    · intro hr
      subst hr
      unfold WaitForPacketPoll
      rw [if_neg h1, if_neg h0, if_pos (by decide), if_neg (by decide),
        if_pos rfl]
    · intro hr
      subst hr
      unfold WaitForPacketPoll
      rw [if_neg h1, if_neg h0, if_pos (by decide), if_neg (by decide),
        if_neg (by decide), if_pos rfl]
    · intro hnv herr hhup hin
      unfold WaitForPacketPoll
      rw [if_neg h1, if_neg h0]
      have hck : checkDataToRead revents =
          .timeoutErr
            "File descriptor was polled but no data was available to receive." := by
        unfold checkDataToRead
        rw [if_pos hin]
      by_cases hmask : revents &&& (POLLNVAL ||| POLLERR ||| POLLHUP) ≠ 0
      · rw [if_pos hmask, if_neg hnv, if_neg herr, if_neg hhup]
        exact hck
      · rw [if_neg hmask]
        exact hck
    · intro hnv herr hhup hin
      unfold WaitForPacketPoll
      rw [if_neg h1, if_neg h0]
      have hck : checkDataToRead revents = .receive := by
        unfold checkDataToRead
        rw [if_neg hin]
      by_cases hmask : revents &&& (POLLNVAL ||| POLLERR ||| POLLHUP) ≠ 0
      · rw [if_pos hmask, if_neg hnv, if_neg herr, if_neg hhup]
        exact hck
      · rw [if_neg hmask]
        exact hck

/-- Witness for C4 across its branches: timeout, wait error, exact POLLHUP,
spurious wakeup, and a POLLHUP|POLLIN mask that proceeds to receive. -/
theorem C4_poll_error_paths_witness :
    WaitForPacketPoll "E" 0 0 =
        .timeoutErr "Timeout while waiting to receive packet."
    ∧ WaitForPacketPoll "E" (-1) 0 =
        .runtimeErr ("File descriptor reported an error during polling: " ++ "E")
    ∧ WaitForPacketPoll "E" 1 16 =
        .runtimeErr "Connection closed by remote client: POLLHUP"
    ∧ WaitForPacketPoll "E" 1 2 =
        .timeoutErr "File descriptor was polled but no data was available to receive."
    ∧ WaitForPacketPoll "E" 1 17 = .receive :=
  ⟨(C4_poll_error_paths "E" 0 0).1 rfl,
   (C4_poll_error_paths "E" (-1) 0).2.1 rfl,
   ((C4_poll_error_paths "E" 1 16).2.2 (by decide) (by decide)).2.2.1 rfl,
   (((C4_poll_error_paths "E" 1 2).2.2 (by decide) (by decide)).2.2.2.1
     (by decide) (by decide) (by decide) (by decide)),
   (((C4_poll_error_paths "E" 1 17).2.2 (by decide) (by decide)).2.2.2.2
     (by decide) (by decide) (by decide) (by decide))⟩

/-- Arithmetic form of the header word built by `SendPacket` when family and
id fit their declared bit fields. -/
theorem packHeader_eq (packetFamily packetId : Nat) (hf : packetFamily < 2 ^ 6)
    (hid : packetId < 2 ^ 10) :
    packHeader packetFamily packetId =
      packetFamily * 2 ^ 26 + packetId * 2 ^ 16 := by
  unfold packHeader
  rw [Nat.shiftLeft_eq, Nat.shiftLeft_eq]
  have hf32 : packetFamily * 2 ^ 26 < 2 ^ 32 := by
    calc packetFamily * 2 ^ 26 < 2 ^ 6 * 2 ^ 26 :=
           (Nat.mul_lt_mul_right (by norm_num)).mpr hf
      _ = 2 ^ 32 := by norm_num
  have hid26 : packetId * 2 ^ 16 < 2 ^ 26 := by
    calc packetId * 2 ^ 16 < 2 ^ 10 * 2 ^ 16 :=
           (Nat.mul_lt_mul_right (by norm_num)).mpr hid
      _ = 2 ^ 26 := by norm_num
  rw [Nat.mod_eq_of_lt hf32, Nat.mod_eq_of_lt (by omega)]
  have hor := Nat.mul_add_lt_is_or (i := 26) hid26 packetFamily
  rw [Nat.mul_comm packetFamily (2 ^ 26), ← hor]

theorem packHeader_lt (packetFamily packetId : Nat) (hf : packetFamily < 2 ^ 6)
    (hid : packetId < 2 ^ 10) : packHeader packetFamily packetId < 2 ^ 32 := by
  rw [packHeader_eq packetFamily packetId hf hid]
  have : packetFamily * 2 ^ 26 ≤ 63 * 2 ^ 26 :=
    Nat.mul_le_mul_right _ (by omega)
  have : packetId * 2 ^ 16 ≤ 1023 * 2 ^ 16 :=
    Nat.mul_le_mul_right _ (by omega)
  omega

/-- C1: for every packet family and id within their declared bit-field widths
and every payload, `SendPacket` followed by `ReceivePacket` on the peer (over
a transport delivering the sent bytes) yields a Packet whose header word
unpacks to the original (family, id) pair (low 16 bits reserved, zero), whose
length equals the payload length, and whose payload bytes are identical to
those sent. -/
theorem C1_send_receive_roundtrip (packetFamily packetId : Nat)
    (data : List Nat) (e : TargetEndianness) (hf : packetFamily < 2 ^ 6)
    (hid : packetId < 2 ^ 10) (hlen : data.length < 2 ^ 32) :
    ReceivePacket (SendPacketBytes packetFamily packetId data e) e =
        some ⟨packHeader packetFamily packetId, data.length, data⟩
      ∧ packHeader packetFamily packetId / 2 ^ 26 = packetFamily
      ∧ packHeader packetFamily packetId / 2 ^ 16 % 2 ^ 10 = packetId
      ∧ packHeader packetFamily packetId % 2 ^ 16 = 0 := by
  have hpk := packHeader_eq packetFamily packetId hf hid
  have hpklt := packHeader_lt packetFamily packetId hf hid
  refine ⟨?_, by rw [hpk]; omega, by rw [hpk]; omega, by rw [hpk]; omega⟩
  unfold SendPacketBytes
  rw [Nat.mod_eq_of_lt hlen]
  have h1len := InsertU32_length (packHeader packetFamily packetId) e
  have h2len := InsertU32_length data.length e
  rw [List.append_assoc]
  unfold ReceivePacket ReadHeader
  have hstream :
      (InsertU32 (packHeader packetFamily packetId) e ++
        (InsertU32 data.length e ++ data)).length = 8 + data.length := by
    simp [List.length_append, h1len, h2len]
    omega
  rw [if_neg (by omega)]
  have hw0 : ToUint32
      (InsertU32 (packHeader packetFamily packetId) e ++
        (InsertU32 data.length e ++ data)) e = packHeader packetFamily packetId :=
    ToUint32_InsertU32_append _ e _ hpklt
  have hdrop4 :
      (InsertU32 (packHeader packetFamily packetId) e ++
        (InsertU32 data.length e ++ data)).drop 4 =
        InsertU32 data.length e ++ data :=
    List.drop_left' h1len
  have hw1 : ToUint32 (InsertU32 data.length e ++ data) e = data.length :=
    ToUint32_InsertU32_append _ e _ hlen
  have hdrop8 :
      (InsertU32 (packHeader packetFamily packetId) e ++
        (InsertU32 data.length e ++ data)).drop 8 = data := by
    rw [show (8 : Nat) = 4 + 4 from rfl, ← List.drop_drop, hdrop4]
    exact List.drop_left' h2len
  simp only [hw0, hdrop4, hw1, hdrop8]
  rw [if_neg (by omega)]
  rw [List.take_length]

/-- Witness for C1: family 1, id 2, payload `[5]`, big-endian wire. -/
theorem C1_send_receive_roundtrip_witness :
    ReceivePacket (SendPacketBytes 1 2 [5] .BeWire) .BeWire =
        some ⟨packHeader 1 2, 1, [5]⟩
      ∧ packHeader 1 2 / 2 ^ 26 = 1
      ∧ packHeader 1 2 / 2 ^ 16 % 2 ^ 10 = 2
      ∧ packHeader 1 2 % 2 ^ 16 = 0 := by
  have h := C1_send_receive_roundtrip 1 2 [5] .BeWire (by norm_num)
    (by norm_num) (by norm_num)
  simpa using h

/-- Branch behaviour of the magic-probe endianness decision. -/
theorem DetermineEndianness_spec (pipeMagic : Nat) (probe : List Nat) :
    (ToUint32 probe .BeWire = pipeMagic →
      DetermineEndianness pipeMagic probe = some .BeWire)
    ∧ (ToUint32 probe .BeWire ≠ pipeMagic → ToUint32 probe .LeWire = pipeMagic →
        DetermineEndianness pipeMagic probe = some .LeWire)
    ∧ (ToUint32 probe .BeWire ≠ pipeMagic → ToUint32 probe .LeWire ≠ pipeMagic →
        DetermineEndianness pipeMagic probe = none) := by
  unfold DetermineEndianness
  refine ⟨fun hbe => by rw [if_pos hbe], fun hbe hle => ?_, fun hbe hle => ?_⟩
  · rw [if_neg hbe, if_pos hle]
  · rw [if_neg hbe, if_neg hle]

/-- A successful handshake fixed its endianness via the magic-probe
decision. -/
theorem WaitForStreamMetaData_some_endianness (pipeMagic : Nat)
    (stream : List Nat) (md : StreamMetaData)
    (h : WaitForStreamMetaData pipeMagic stream = some md) :
    DetermineEndianness pipeMagic (stream.drop 8) = some md.endianness := by
  unfold WaitForStreamMetaData at h
  split_ifs at h
  cases hde : DetermineEndianness pipeMagic (stream.drop 8) with
  | none => rw [hde] at h; exact absurd h (by simp)
  | some e =>
      rw [hde] at h
      simp only at h
      split_ifs at h
      obtain rfl := Option.some.inj h
      rfl

/-- C2: during the stream handshake, for every 4-byte magic-probe word (the
bytes at stream offset 8): if its big-endian interpretation equals the magic
constant the connection endianness is fixed to big-endian mode; otherwise if
its little-endian interpretation equals the magic the endianness is fixed to
little-endian mode; if neither interpretation matches, the handshake fails. -/
theorem C2_endianness_detection (pipeMagic : Nat) (stream : List Nat) :
    (ToUint32 (stream.drop 8) .BeWire ≠ pipeMagic →
      ToUint32 (stream.drop 8) .LeWire ≠ pipeMagic →
      WaitForStreamMetaData pipeMagic stream = none)
    ∧ (∀ md, WaitForStreamMetaData pipeMagic stream = some md →
        (ToUint32 (stream.drop 8) .BeWire = pipeMagic →
          md.endianness = .BeWire)
        ∧ (ToUint32 (stream.drop 8) .BeWire ≠ pipeMagic →
            ToUint32 (stream.drop 8) .LeWire = pipeMagic →
            md.endianness = .LeWire)) := by
  constructor
  · intro hbe hle
    unfold WaitForStreamMetaData
    rw [(DetermineEndianness_spec pipeMagic (stream.drop 8)).2.2 hbe hle]
    split_ifs <;> rfl
  · intro md hmd
    have hde := WaitForStreamMetaData_some_endianness pipeMagic stream md hmd
    constructor
    · intro hbe
      rw [(DetermineEndianness_spec pipeMagic (stream.drop 8)).1 hbe] at hde
      exact (Option.some.inj hde).symm
    · intro hbe hle
      rw [(DetermineEndianness_spec pipeMagic (stream.drop 8)).2.1 hbe hle]
        at hde
      exact (Option.some.inj hde).symm

/-- Witness for C2: a big-endian-encoded magic probe fixes big-endian mode, a
little-endian-encoded one fixes little-endian mode, and a garbage probe fails
the handshake.  The probe `[69, 73, 84, 52]` reads 1162433588 big-endian. -/
theorem C2_endianness_detection_witness :
    (WaitForStreamMetaData 1162433588
        [0, 0, 0, 0, 0, 0, 0, 16, 69, 73, 84, 52, 1, 0, 0, 0, 0, 0, 1, 0, 0, 0, 0, 9] =
      some ⟨.BeWire, 16777216, 256, 9⟩)
    ∧ (⟨.BeWire, 16777216, 256, 9⟩ : StreamMetaData).endianness = .BeWire
    ∧ (⟨.LeWire, 1, 65536, 150994944⟩ : StreamMetaData).endianness = .LeWire
    ∧ WaitForStreamMetaData 1162433588 [0, 0, 0, 0, 0, 0, 0, 1, 2, 3, 4, 5] =
        none := by
  have hres : WaitForStreamMetaData 1162433588
      [0, 0, 0, 0, 0, 0, 0, 16, 69, 73, 84, 52, 1, 0, 0, 0, 0, 0, 1, 0, 0, 0, 0, 9] =
      some ⟨.BeWire, 16777216, 256, 9⟩ := by decide
  have hresLe : WaitForStreamMetaData 1162433588
      [0, 0, 0, 0, 16, 0, 0, 0, 52, 84, 73, 69, 1, 0, 0, 0, 0, 0, 1, 0, 0, 0, 0, 9] =
      some ⟨.LeWire, 1, 65536, 150994944⟩ := by decide
  refine ⟨hres, ?_, ?_, ?_⟩
  · exact ((C2_endianness_detection 1162433588
      [0, 0, 0, 0, 0, 0, 0, 16, 69, 73, 84, 52, 1, 0, 0, 0, 0, 0, 1, 0, 0, 0, 0, 9]).2
      _ hres).1 (by decide)
  · exact ((C2_endianness_detection 1162433588
      [0, 0, 0, 0, 16, 0, 0, 0, 52, 84, 73, 69, 1, 0, 0, 0, 0, 0, 1, 0, 0, 0, 0, 9]).2
      _ hresLe).2 (by decide) (by decide)
  · exact (C2_endianness_detection 1162433588
      [0, 0, 0, 0, 0, 0, 0, 1, 2, 3, 4, 5]).1 (by decide) (by decide)

/-- C9: the handshake computes the remaining preamble byte count as
`length word - 4` in unsigned 32-bit arithmetic with no lower-bound check, so
a length word below 4 wraps modulo 2^32 (a length word of 0 yields a read
request of 4294967292 bytes); such a stream is not rejected as malformed but
fails only because the huge read cannot be satisfied. -/
theorem C9_preamble_length_underflow :
    (∀ lenWord : Nat, lenWord < 4 →
        metaDataLengthOf lenWord = lenWord + 4294967292)
    ∧ metaDataLengthOf 0 = 4294967292
    ∧ (∀ tail : List Nat, tail.length < 4294967292 →
        WaitForStreamMetaData 1162433588
          ([0, 0, 0, 0, 0, 0, 0, 0, 69, 73, 84, 52] ++ tail) = none) := by
  have hlen0 : ∀ lenWord : Nat, lenWord < 4 →
      metaDataLengthOf lenWord = lenWord + 4294967292 := by
    intro lenWord hlt
    unfold metaDataLengthOf
    rw [Nat.mod_eq_of_lt (by omega)]
    omega
  refine ⟨hlen0, hlen0 0 (by omega), ?_⟩
  intro tail htail
  unfold WaitForStreamMetaData
  rw [if_neg (by simp)]
  rw [if_neg (by simp [ToUint32_cons_be 0 0 0 0 _ (by omega) (by omega) (by omega)])]
  rw [if_neg (by simp)]
  have hprobe : ([0, 0, 0, 0, 0, 0, 0, 0, 69, 73, 84, 52] ++ tail).drop 8 =
      69 :: 73 :: 84 :: 52 :: tail := by simp
  have hbe : ToUint32 (([0, 0, 0, 0, 0, 0, 0, 0, 69, 73, 84, 52] ++ tail).drop 8)
      .BeWire = 1162433588 := by
    rw [hprobe, ToUint32_cons_be 69 73 84 52 tail (by omega) (by omega) (by omega)]
    norm_num
  rw [(DetermineEndianness_spec 1162433588 _).1 hbe]
  have hlenword :
      ToUint32 (([0, 0, 0, 0, 0, 0, 0, 0, 69, 73, 84, 52] ++ tail).drop 4)
        .BeWire = 0 := by
    have hdrop : ([0, 0, 0, 0, 0, 0, 0, 0, 69, 73, 84, 52] ++ tail).drop 4 =
        0 :: 0 :: 0 :: 0 :: (69 :: 73 :: 84 :: 52 :: tail) := by simp
    rw [hdrop, ToUint32_cons_be 0 0 0 0 _ (by omega) (by omega) (by omega)]
    norm_num
  simp only [hlenword]
  rw [if_pos ?_]
  have hdrop12 : ([0, 0, 0, 0, 0, 0, 0, 0, 69, 73, 84, 52] ++ tail).drop 12 =
      tail := by simp
  rw [hdrop12, hlen0 0 (by omega)]
  omega

/-- Witness for C9 at the length words 2 and 0 and the empty remainder. -/
theorem C9_preamble_length_underflow_witness :
    metaDataLengthOf 2 = 4294967294 ∧ metaDataLengthOf 0 = 4294967292 ∧
      WaitForStreamMetaData 1162433588
        ([0, 0, 0, 0, 0, 0, 0, 0, 69, 73, 84, 52] ++ []) = none :=
  ⟨C9_preamble_length_underflow.1 2 (by omega),
   C9_preamble_length_underflow.2.1,
   C9_preamble_length_underflow.2.2 [] (by simp)⟩

/-- `findIndexed` after one `insertIndexed` step: the handler lands at the
back of the vector for its key and nowhere else. -/
theorem findIndexed_insertIndexed (idx : List (Nat × List Handler))
    (k hdr : Nat) (h : Handler) :
    findIndexed (insertIndexed idx k h) hdr =
      if hdr = k then findIndexed idx hdr ++ [h] else findIndexed idx hdr := by
  induction idx with
  | nil =>
      by_cases hk : hdr = k
      · subst hk
        simp [insertIndexed, findIndexed]
      · have hk2 : ¬(k = hdr) := fun hx => hk hx.symm
        simp [insertIndexed, findIndexed, hk, hk2]
  | cons p t ih =>
      obtain ⟨k1, hs⟩ := p
      simp only [insertIndexed]
      by_cases hk1 : k1 = k
      · subst hk1
        rw [if_pos rfl]
        simp only [findIndexed]
        by_cases hk : hdr = k1
        · subst hk
          simp
        · have hk2 : ¬(k1 = hdr) := fun hx => hk hx.symm
          simp [hk, hk2]
      · rw [if_neg hk1]
        simp only [findIndexed]
        by_cases hk : k1 = hdr
        · subst hk
          simp [hk1]
        · simp only [if_neg hk]
          exact ih

/-- Folding a handler's accepted-header list into the index appends it to
exactly the vectors of the headers it accepts (once each, for a duplicate-free
accepted list). -/
theorem findIndexed_foldl (L : List Nat) (h : Handler)
    (idx : List (Nat × List Handler)) (hdr : Nat) (hnd : L.Nodup) :
    findIndexed (L.foldl (fun i hd => insertIndexed i hd h) idx) hdr =
      findIndexed idx hdr ++ (if hdr ∈ L then [h] else []) := by
  induction L generalizing idx with
  | nil => simp
  | cons a t ih =>
      obtain ⟨ha, ht⟩ := List.nodup_cons.mp hnd
      simp only [List.foldl_cons]
      rw [ih (insertIndexed idx a h) ht, findIndexed_insertIndexed]
      by_cases hda : hdr = a
      · subst hda
        rw [if_pos rfl, if_neg ha, if_pos (by simp)]
        simp
      · rw [if_neg hda]
        by_cases hmem : hdr ∈ t
        · rw [if_pos hmem, if_pos (by simp [hmem])]
        · rw [if_neg hmem, if_neg (by simp [hda, hmem])]

/-- Registration keeps universal handlers in registration order. -/
theorem universalHandlers_foldl (hs : List Handler) (reg : Registry) :
    (hs.foldl AddLocalPacketHandler reg).universalHandlers =
      reg.universalHandlers ++
        hs.filter (fun h => h.headersAccepted.isEmpty) := by
  induction hs generalizing reg with
  | nil => simp
  | cons h t ih =>
      simp only [List.foldl_cons]
      rw [ih]
      unfold AddLocalPacketHandler
      by_cases he : h.headersAccepted.isEmpty
      · rw [if_pos he]
        simp [List.filter_cons, he]
      · rw [if_neg he]
        simp [List.filter_cons, he]

/-- Registration indexes each non-universal handler under exactly its
accepted headers, in registration order per header. -/
theorem indexedHandlers_foldl (hs : List Handler) (reg : Registry) (hdr : Nat)
    (hnd : ∀ h ∈ hs, h.headersAccepted.Nodup) :
    findIndexed (hs.foldl AddLocalPacketHandler reg).indexedHandlers hdr =
      findIndexed reg.indexedHandlers hdr ++
        hs.filter (fun h => decide (hdr ∈ h.headersAccepted)) := by
  induction hs generalizing reg with
  | nil => simp
  | cons h t ih =>
      simp only [List.foldl_cons]
      rw [ih _ (fun x hx => hnd x (by simp [hx]))]
      unfold AddLocalPacketHandler
      by_cases he : h.headersAccepted.isEmpty
      · rw [if_pos he]
        have hmem : decide (hdr ∈ h.headersAccepted) = false := by
          rw [List.isEmpty_iff] at he
          simp [he]
        simp [List.filter_cons, hmem]
      · rw [if_neg he]
        have hfold := findIndexed_foldl h.headersAccepted h
          reg.indexedHandlers hdr (hnd h (by simp))
        simp only [hfold]
        by_cases hmem : hdr ∈ h.headersAccepted
        · rw [if_pos hmem]
          simp [List.filter_cons, hmem, List.append_assoc]
        · rw [if_neg hmem]
          simp [List.filter_cons, hmem]

/-- C5: for every registered handler set (each handler declaring a
duplicate-free accepted-header set) and every dispatched packet, the
universal handlers are invoked first, in registration order, followed by
exactly the handlers whose accepted set contains the packet's header value,
also in registration order; a handler whose non-empty accepted set does not
contain that header value is not invoked. -/
theorem C5_dispatch_order (hs : List Handler)
    (hnd : ∀ h ∈ hs, h.headersAccepted.Nodup) (hdr : Nat) :
    DispatchPacketToHandlers (buildRegistry hs) hdr =
      (hs.filter (fun h => h.headersAccepted.isEmpty)).map Handler.id ++
        (hs.filter (fun h => decide (hdr ∈ h.headersAccepted))).map Handler.id := by
  unfold DispatchPacketToHandlers buildRegistry
  rw [universalHandlers_foldl, indexedHandlers_foldl hs emptyRegistry hdr hnd]
  simp [emptyRegistry, findIndexed]

/-- Witness for C5: with H1 universal and H2 accepting only header 5, a
packet with header 5 produces call order [1, 2] and a packet with header 7
produces [1] only. -/
theorem C5_dispatch_order_witness :
    DispatchPacketToHandlers (buildRegistry [⟨1, []⟩, ⟨2, [5]⟩]) 5 = [1, 2] ∧
      DispatchPacketToHandlers (buildRegistry [⟨1, []⟩, ⟨2, [5]⟩]) 7 = [1] :=
  ⟨(C5_dispatch_order [⟨1, []⟩, ⟨2, [5]⟩] (by decide) 5).trans (by decide),
   (C5_dispatch_order [⟨1, []⟩, ⟨2, [5]⟩] (by decide) 7).trans (by decide)⟩

/-- C6: after `Close` returns, no packet is dispatched to any handler: every
packet still queued at the time of the call is discarded rather than
processed (the dispatch log is unchanged and both queues are drained), the
worker loop terminates within one scheduler step regardless of the fuel bound
(the join does not deadlock), and a packet forwarded afterwards is dropped,
so nothing can be dispatched after `Close` returns. -/
theorem C6_close_discards_and_joins (s : Conn) (fuel : Nat) (hfuel : 1 ≤ fuel)
    (p : Packet) :
    Close fuel s =
      { s with packetQueue := [], readableList := [],
               keepRunning := false, isRunning := false }
    ∧ (Close fuel s).dispatched = s.dispatched
    ∧ (Close fuel s).readableList = []
    ∧ ForwardPacketToHandlers (Close fuel s) p = Close fuel s := by
  obtain ⟨f, rfl⟩ : ∃ f, fuel = f + 1 := ⟨fuel - 1, by omega⟩
  have hclose : Close (f + 1) s =
      { s with packetQueue := [], readableList := [],
               keepRunning := false, isRunning := false } := rfl
  refine ⟨hclose, by rw [hclose], by rw [hclose], ?_⟩
  rw [hclose]
  unfold ForwardPacketToHandlers
  split_ifs with h1 h2
  · rfl
  · rfl
  · exact absurd rfl h2

/-- Witness for C6: a connection with one packet waiting in each queue, a
running worker and one registered handler; `Close` with fuel 1 discards both
packets, dispatches nothing, and a subsequent forward is a no-op. -/
theorem C6_close_discards_and_joins_witness :
    Close 1 ⟨[⟨2, 0, []⟩], [⟨1, 0, []⟩], true, true, [], [⟨1, []⟩], .BeWire, [], 0⟩ =
      { (⟨[⟨2, 0, []⟩], [⟨1, 0, []⟩], true, true, [], [⟨1, []⟩], .BeWire, [], 0⟩ : Conn)
          with packetQueue := [], readableList := [],
               keepRunning := false, isRunning := false }
    ∧ (Close 1 ⟨[⟨2, 0, []⟩], [⟨1, 0, []⟩], true, true, [], [⟨1, []⟩], .BeWire, [], 0⟩).dispatched = []
    ∧ (Close 1 ⟨[⟨2, 0, []⟩], [⟨1, 0, []⟩], true, true, [], [⟨1, []⟩], .BeWire, [], 0⟩).readableList = []
    ∧ ForwardPacketToHandlers
        (Close 1 ⟨[⟨2, 0, []⟩], [⟨1, 0, []⟩], true, true, [], [⟨1, []⟩], .BeWire, [], 0⟩)
        ⟨3, 0, []⟩ =
        Close 1 ⟨[⟨2, 0, []⟩], [⟨1, 0, []⟩], true, true, [], [⟨1, []⟩], .BeWire, [], 0⟩ :=
  C6_close_discards_and_joins
    ⟨[⟨2, 0, []⟩], [⟨1, 0, []⟩], true, true, [], [⟨1, []⟩], .BeWire, [], 0⟩
    1 (by omega) ⟨3, 0, []⟩

/-- C7: a header word equal to 0x20000 is classified as a counter-directory
packet, a header word equal to 0 as stream metadata, and every other header
value as unknown; a packet classified unknown is forwarded to the registered
handlers unmodified (the very same header, length and payload are appended to
the readable list) with no other processing of the connection state. -/
theorem C7_unknown_packets_pass_through :
    (∀ p : Packet,
      (p.header = 0x20000 → GetPackageActivity p = .CounterDirectory)
      ∧ (p.header = 0 → GetPackageActivity p = .StreamMetaData)
      ∧ (p.header ≠ 0x20000 → p.header ≠ 0 → GetPackageActivity p = .Unknown))
    ∧ (∀ (pipeMagic : Nat) (decodeUids : List Nat → List Nat) (s : Conn)
        (buffer : List Nat),
        (parsePacketFromBuffer s.endianness buffer).header ≠ 0x20000 →
        (parsePacketFromBuffer s.endianness buffer).header ≠ 0 →
        WritePacket pipeMagic decodeUids s buffer =
          some (ForwardPacketToHandlers s
            (parsePacketFromBuffer s.endianness buffer)))
    ∧ (∀ (s : Conn) (p : Packet), s.packetHandlers.isEmpty = false →
        s.keepRunning = true →
        ForwardPacketToHandlers s p =
          { s with readableList := s.readableList ++ [p] }) := by
  have hclass : ∀ p : Packet,
      (p.header = 0x20000 → GetPackageActivity p = .CounterDirectory)
      ∧ (p.header = 0 → GetPackageActivity p = .StreamMetaData)
      ∧ (p.header ≠ 0x20000 → p.header ≠ 0 →
          GetPackageActivity p = .Unknown) := by
    intro p
    unfold GetPackageActivity
    refine ⟨fun h => by rw [if_pos h], fun h => ?_, fun h1 h2 => ?_⟩
    · rw [if_neg (by omega), if_pos h]
    · rw [if_neg h1, if_neg h2]
  refine ⟨hclass, ?_, ?_⟩
  · intro pipeMagic decodeUids s buffer h1 h2
    unfold WritePacket
    simp only [(hclass (parsePacketFromBuffer s.endianness buffer)).2.2 h1 h2]
  · intro s p hh hk
    unfold ForwardPacketToHandlers
    rw [if_neg (by rw [hh]; exact Bool.false_ne_true), if_neg (by rw [hk]; simp)]

/-- Witness for C7: header 9 is unknown and the packet is appended verbatim
to the readable list of a running connection with one handler. -/
theorem C7_unknown_packets_pass_through_witness :
    GetPackageActivity ⟨9, 0, []⟩ = .Unknown
    ∧ GetPackageActivity ⟨0x20000, 0, []⟩ = .CounterDirectory
    ∧ GetPackageActivity ⟨0, 0, []⟩ = .StreamMetaData
    ∧ WritePacket 0 (fun x => x)
        ⟨[], [], true, true, [], [⟨1, []⟩], .BeWire, [], 0⟩
        [0, 0, 0, 9, 0, 0, 0, 0] =
        some (ForwardPacketToHandlers
          ⟨[], [], true, true, [], [⟨1, []⟩], .BeWire, [], 0⟩
          (parsePacketFromBuffer .BeWire [0, 0, 0, 9, 0, 0, 0, 0]))
    ∧ ForwardPacketToHandlers
        ⟨[], [], true, true, [], [⟨1, []⟩], .BeWire, [], 0⟩ ⟨9, 0, []⟩ =
        { (⟨[], [], true, true, [], [⟨1, []⟩], .BeWire, [], 0⟩ : Conn) with
            readableList := [⟨9, 0, []⟩] } :=
  ⟨(C7_unknown_packets_pass_through.1 ⟨9, 0, []⟩).2.2 (by decide) (by decide),
   (C7_unknown_packets_pass_through.1 ⟨0x20000, 0, []⟩).1 rfl,
   (C7_unknown_packets_pass_through.1 ⟨0, 0, []⟩).2.1 rfl,
   C7_unknown_packets_pass_through.2.1 0 (fun x => x)
     ⟨[], [], true, true, [], [⟨1, []⟩], .BeWire, [], 0⟩
     [0, 0, 0, 9, 0, 0, 0, 0] (by decide) (by decide),
   C7_unknown_packets_pass_through.2.2
     ⟨[], [], true, true, [], [⟨1, []⟩], .BeWire, [], 0⟩ ⟨9, 0, []⟩
     (by decide) (by decide)⟩

end ClaimTheorems

end ArmnnProfiling
